import Mathlib

/-!
Verification development for a small SQL engine (tokenizer, recursive-descent
parser, schema-validated table store, storage engine, executor, and the
top-level catch-all boundary).  The Python source is embedded shallowly:

* Python scalar values (`int`, `float`, `str`, `None`) become the inductive
  `Value`.  A float is modelled by the exact decimal value of its literal,
  kept as an integer mantissa and a power-of-ten scale (`num / 10 ^ scale`);
  IEEE rounding is not modelled — no claim in scope depends on it, only on
  the *kind* tag of the value and on comparisons of small decimal literals.
* Python dicts become insertion-ordered association lists with the dict
  update semantics (`dictSet` overwrites in place, appends fresh keys).
* Every `raise` becomes an `Except PySql.Err` error; the message rendering
  (`Err.message`) mirrors Python's `str(e)` for each exception the code
  constructs.
* The two character-consuming loops (the tokenizer's main loop and the
  parser's comma/AND/OR loops) are written with an explicit fuel parameter
  so that they are structurally recursive and kernel-computable; every
  entry point supplies fuel bounded below by the input length, and each
  iteration consumes at least one element and exactly one unit of fuel, so
  the out-of-fuel branch is unreachable from the public entry points.
* Character classification mirrors the Python predicates on the ASCII
  range, which is the range every claim exercises.
-/

deriving instance DecidableEq for Except

namespace PySql

/-- Python runtime scalar values that can appear as token values, row values
and literals: `int`, `float` (exact decimal `num / 10 ^ scale`), `str`, and
`None`. -/
inductive Value where
  | int (n : Int)
  | float (num : Int) (scale : Nat)
  | str (s : String)
  | pyNone
deriving DecidableEq

/-- Python `type(value).__name__` for the scalar kinds of `Value`. -/
def Value.typeName : Value → String
  | .int _ => "int"
  | .float _ _ => "float"
  | .str _ => "str"
  | .pyNone => "NoneType"

/-- isinstance(value, int) (our `Value` has no `bool`, Python's sole other
`int` subtype reachable here). -/
def Value.isInt : Value → Bool
  | .int _ => true
  | _ => false

/-- isinstance(value, str). -/
def Value.isStr : Value → Bool
  | .str _ => true
  | _ => false

/-- Python truthiness of a scalar (`if value:`): zero, empty text and `None`
are falsy. -/
def Value.truthy : Value → Bool
  | .int n => n != 0
  | .float num _ => num != 0
  | .str s => s != ""
  | .pyNone => false

/-- View of a numeric value as mantissa/scale, `some (m, s)` meaning
`m / 10 ^ s`; `none` for non-numeric values. -/
def Value.numView : Value → Option (Int × Nat)
  | .int n => some (n, 0)
  | .float num scale => some (num, scale)
  | _ => none

/-- The string a lexer identifier or keyword token carries.  The lexer only
ever stores `Value.str` in identifier and keyword tokens, so on every token
the parser reads this is the identity; the other branches are unreachable
from lexer output and are mapped to `""` for totality. -/
def Value.asString : Value → String
  | .str s => s
  | _ => ""

/-- Numeric `a < b` on mantissa/scale views by cross multiplication. -/
def numLtB (a b : Int × Nat) : Bool :=
  a.1 * (10 : Int) ^ b.2 < b.1 * (10 : Int) ^ a.2

/-- Numeric `a == b` on mantissa/scale views by cross multiplication. -/
def numEqB (a b : Int × Nat) : Bool :=
  a.1 * (10 : Int) ^ b.2 == b.1 * (10 : Int) ^ a.2

/-- Python code-point lexicographic `<` on text (what `str.__lt__` does). -/
def strLtB : List Char → List Char → Bool
  | [], [] => false
  | [], _ :: _ => true
  | _ :: _, [] => false
  | a :: as, b :: bs =>
    if a.toNat < b.toNat then true
    else if b.toNat < a.toNat then false
    else strLtB as bs

/-- Insertion-ordered dictionary lookup: the value bound to `k`, reading an
association list whose keys are unique (as every Python dict's are). -/
def dictGet {α : Type} : List (String × α) → String → Option α
  | [], _ => none
  | (k', v) :: rest, k => if k' = k then some v else dictGet rest k

/-- Python dict assignment `d[k] = v`: overwrite in place when the key is
present, append otherwise. -/
def dictSet {α : Type} : List (String × α) → String → α → List (String × α)
  | [], k, v => [(k, v)]
  | (k', v') :: rest, k, v =>
    if k' = k then (k, v) :: rest else (k', v') :: dictSet rest k v

/-- Python `dict(pairs)` / a dict display: sequential dict assignment starting
from the empty dict. -/
def dictOfPairs {α : Type} (ps : List (String × α)) : List (String × α) :=
  ps.foldl (fun d kv => dictSet d kv.1 kv.2) []

/-- A row: Python's mapping from column name to scalar value, in insertion
order. -/
abbrev Row := List (String × Value)

/-- The token kinds of `lexer.TokenType`. -/
inductive TokenType where
  | SELECT | FROM | WHERE | INSERT | INTO | VALUES | CREATE | TABLE
  | INT | VARCHAR | AND | OR
  | IDENTIFIER | NUMBER | STRING
  | EQUALS | GREATER | LESS | GREATER_EQ | LESS_EQ | NOT_EQ
  | LPAREN | RPAREN | COMMA | SEMICOLON | STAR
  | EOF
deriving DecidableEq

/-- Python `str(TokenType.X)` as used in parser error messages. -/
def TokenType.pyStr : TokenType → String
  | .SELECT => "TokenType.SELECT"
  | .FROM => "TokenType.FROM"
  | .WHERE => "TokenType.WHERE"
  | .INSERT => "TokenType.INSERT"
  | .INTO => "TokenType.INTO"
  | .VALUES => "TokenType.VALUES"
  | .CREATE => "TokenType.CREATE"
  | .TABLE => "TokenType.TABLE"
  | .INT => "TokenType.INT"
  | .VARCHAR => "TokenType.VARCHAR"
  | .AND => "TokenType.AND"
  | .OR => "TokenType.OR"
  | .IDENTIFIER => "TokenType.IDENTIFIER"
  | .NUMBER => "TokenType.NUMBER"
  | .STRING => "TokenType.STRING"
  | .EQUALS => "TokenType.EQUALS"
  | .GREATER => "TokenType.GREATER"
  | .LESS => "TokenType.LESS"
  | .GREATER_EQ => "TokenType.GREATER_EQ"
  | .LESS_EQ => "TokenType.LESS_EQ"
  | .NOT_EQ => "TokenType.NOT_EQ"
  | .LPAREN => "TokenType.LPAREN"
  | .RPAREN => "TokenType.RPAREN"
  | .COMMA => "TokenType.COMMA"
  | .SEMICOLON => "TokenType.SEMICOLON"
  | .STAR => "TokenType.STAR"
  | .EOF => "TokenType.EOF"

/-- A token: kind, carried value (string text, parsed number, or `None` for
EOF) and source position. -/
structure Token where
  type : TokenType
  value : Value
  position : Nat
deriving DecidableEq

/-- Every exception the pipeline can raise, one constructor per `raise` site,
plus the fuel artifact of the embedding (`outOfFuel`, unreachable from the
public entry points because they supply fuel bounded below by input length). -/
inductive Err where
  | unexpectedChar (c : Char) (pos : Nat)
  | unterminatedString (pos : Nat)
  | floatConv (lit : String)
  | noneToken
  | outOfFuel
  | expectedToken (expected actual : TokenType) (pos : Nat)
  | unexpectedStatement (actual : TokenType)
  | expectedDataType (actual : TokenType)
  | expectedOperator (actual : TokenType)
  | expectedValue (actual : TokenType)
  | tableExists (name : String)
  | tableNotExist (name : String)
  | columnNotExist (column table : String)
  | typeMismatch (column expected actual : String)
  | lengthExceeded (column : String) (size : Value)
  | columnNotInRow (column : String)
  | unknownOperator (op : String)
  | unknownLogicalOperator (op : String)
  | typeErrorCmp (op tyA tyB : String)
deriving DecidableEq

/-- Decimal rendering of a scalar, as Python's `str` renders the values that
reach messages and query output in this engine (floats keep their decimal
mantissa/scale form). -/
def Value.pyStr : Value → String
  | .int n => toString n
  | .float num scale => toString num ++ "e-" ++ toString scale
  | .str s => s
  | .pyNone => "None"

/-- Python `str(e)` for each exception the code raises. -/
def Err.message : Err → String
  | .unexpectedChar c pos => s!"Unexpected character '{c}' at position {pos}"
  | .unterminatedString pos => s!"Unterminated string at position {pos}"
  | .floatConv lit => s!"could not convert string to float: '{lit}'"
  | .noneToken => "'NoneType' object has no attribute 'type'"
  | .outOfFuel => "out of fuel (modelling artifact, unreachable)"
  | .expectedToken expected actual pos =>
      "Expected " ++ expected.pyStr ++ ", got " ++ actual.pyStr ++
        s!" at position {pos}"
  | .unexpectedStatement actual =>
      "Unexpected statement starting with " ++ actual.pyStr
  | .expectedDataType actual => "Expected data type, got " ++ actual.pyStr
  | .expectedOperator actual =>
      "Expected comparison operator, got " ++ actual.pyStr
  | .expectedValue actual => "Expected value, got " ++ actual.pyStr
  | .tableExists name => s!"Table '{name}' already exists"
  | .tableNotExist name => s!"Table '{name}' does not exist"
  | .columnNotExist column table =>
      s!"Column '{column}' does not exist in table '{table}'"
  | .typeMismatch column expected actual =>
      s!"Column '{column}' expects {expected}, got {actual}"
  | .lengthExceeded column size =>
      s!"Value for '{column}' exceeds maximum length of " ++ size.pyStr
  | .columnNotInRow column => s!"Column '{column}' not found in row"
  | .unknownOperator op => s!"Unknown operator: {op}"
  | .unknownLogicalOperator op => s!"Unknown logical operator: {op}"
  | .typeErrorCmp op tyA tyB =>
      s!"'{op}' not supported between instances of '{tyA}' and '{tyB}'"

/-! ## Lexer (`lexer.py`) -/

/-- Lexer.KEYWORDS: the case-insensitive keyword table. -/
def keywordType : String → Option TokenType
  | "SELECT" => some .SELECT
  | "FROM" => some .FROM
  | "WHERE" => some .WHERE
  | "INSERT" => some .INSERT
  | "INTO" => some .INTO
  | "VALUES" => some .VALUES
  | "CREATE" => some .CREATE
  | "TABLE" => some .TABLE
  | "INT" => some .INT
  | "VARCHAR" => some .VARCHAR
  | "AND" => some .AND
  | "OR" => some .OR
  | _ => none

/-- The characters `read_number` consumes: digits and the dot. -/
def numChar (c : Char) : Bool :=
  c.isDigit || c = '.'

/-- The characters an identifier continues with: letters, digits, underscore
(Python `isalnum() or c == underscore`, on the ASCII range the claims use). -/
def identChar (c : Char) : Bool :=
  c.isAlphanum || c = '_'

/-- ASCII uppercasing of one character (Python `str.upper` on the identifier
characters the lexer can produce). -/
def pyCharUpper (c : Char) : Char :=
  if 'a' ≤ c ∧ c ≤ 'z' then Char.ofNat (c.toNat - 32) else c

/-- The natural number Python `int` parses from a nonempty digit run. -/
def natOfDigits (cs : List Char) : Nat :=
  cs.foldl (fun n c => 10 * n + (c.toNat - 48)) 0

/-- The exact decimal value of a digit run containing one dot, as mantissa
and power-of-ten scale: `1.25` becomes `125 / 10 ^ 2`. -/
def decOfRun (cs : List Char) : Int × Nat :=
  let intPart := cs.takeWhile (· ≠ '.')
  let fracPart := (cs.dropWhile (· ≠ '.')).drop 1
  ((natOfDigits (intPart ++ fracPart) : Int), fracPart.length)

/-- The conversion at the end of `read_number`:
`float(num_str) if '.' in num_str else int(num_str)`.  Python's `float`
accepts a digit run with exactly one dot and raises `ValueError` for more
than one dot, which is the only malformed shape a digit-led run can have. -/
def numValue (run : List Char) : Except Err Value :=
  if run.contains '.' then
    if run.count '.' = 1 then
      .ok (.float (decOfRun run).1 (decOfRun run).2)
    else .error (.floatConv (String.mk run))
  else .ok (.int (natOfDigits run))

/-- Lexer.read_number: consume the maximal digit/dot run, convert it, and
return the token, the next position, and the remaining characters. -/
def read_number (pos : Nat) (cs : List Char) : Except Err (Token × Nat × List Char) := do
  let run := cs.takeWhile numChar
  let v ← numValue run
  pure (⟨.NUMBER, v, pos⟩, pos + run.length, cs.dropWhile numChar)

/-- Lexer.read_string: `cs` is the input after the opening quote at
`start_pos`; consume up to the closing quote or fail as unterminated. -/
def read_string (start_pos : Nat) (cs : List Char) : Except Err (Token × Nat × List Char) :=
  let body := cs.takeWhile (· ≠ '\'')
  match cs.dropWhile (· ≠ '\'') with
  | _ :: rest =>
      .ok (⟨.STRING, .str (String.mk body), start_pos⟩, start_pos + body.length + 2, rest)
  | [] => .error (.unterminatedString start_pos)

/-- Lexer.read_identifier: consume the identifier run; a case-insensitive
keyword match yields the keyword token carrying the uppercased text,
otherwise an IDENTIFIER carrying the original text. -/
def read_identifier (pos : Nat) (cs : List Char) : Token × Nat × List Char :=
  let run := cs.takeWhile identChar
  let upper := String.mk (run.map pyCharUpper)
  match keywordType upper with
  | some tt => (⟨tt, .str upper, pos⟩, pos + run.length, cs.dropWhile identChar)
  | none => (⟨.IDENTIFIER, .str (String.mk run), pos⟩, pos + run.length, cs.dropWhile identChar)

/-- The single-character operator/delimiter table of `Lexer.tokenize`. -/
def charTokenType : Char → Option TokenType
  | '=' => some .EQUALS
  | '>' => some .GREATER
  | '<' => some .LESS
  | '(' => some .LPAREN
  | ')' => some .RPAREN
  | ',' => some .COMMA
  | ';' => some .SEMICOLON
  | '*' => some .STAR
  | _ => none

/-- The main loop of `Lexer.tokenize`.  Fuel is a structural-recursion
artifact: every branch consumes at least one character and one unit of fuel,
so any fuel at least the input length makes `outOfFuel` unreachable (the
empty input is accepted at any fuel). -/
def tokenizeAux : Nat → Nat → List Char → Except Err (List Token)
  | _, pos, [] => .ok [⟨.EOF, .pyNone, pos⟩]
  | 0, _, _ => .error .outOfFuel
  | fuel + 1, pos, c :: cs =>
    if c.isWhitespace then tokenizeAux fuel (pos + 1) cs
    else if c.isDigit then do
      let (tok, pos', rest) ← read_number pos (c :: cs)
      let ts ← tokenizeAux fuel pos' rest
      pure (tok :: ts)
    else if c = '\'' then do
      let (tok, pos', rest) ← read_string pos cs
      let ts ← tokenizeAux fuel pos' rest
      pure (tok :: ts)
    else if c.isAlpha || c = '_' then do
      let (tok, pos', rest) := read_identifier pos (c :: cs)
      let ts ← tokenizeAux fuel pos' rest
      pure (tok :: ts)
    else if c = '>' ∧ cs.head? = some '=' then do
      let ts ← tokenizeAux fuel (pos + 2) cs.tail
      pure (⟨.GREATER_EQ, .str ">=", pos⟩ :: ts)
    else if c = '<' ∧ cs.head? = some '=' then do
      let ts ← tokenizeAux fuel (pos + 2) cs.tail
      pure (⟨.LESS_EQ, .str "<=", pos⟩ :: ts)
    else if c = '!' ∧ cs.head? = some '=' then do
      let ts ← tokenizeAux fuel (pos + 2) cs.tail
      pure (⟨.NOT_EQ, .str "!=", pos⟩ :: ts)
    else
      match charTokenType c with
      | some tt => do
          let ts ← tokenizeAux fuel (pos + 1) cs
          pure (⟨tt, .str (String.mk [c]), pos⟩ :: ts)
      | none => .error (.unexpectedChar c pos)

/-- Lexer(sql).tokenize(): token list, always EOF-terminated on success. -/
def tokenize (sql : String) : Except Err (List Token) :=
  tokenizeAux sql.data.length 0 sql.data

/-! ## AST (`parser.py` dataclasses) -/

/-- parser.Column: a column in a table definition.  `data_type` is
`'INT'`/`'VARCHAR'` when set by the parser; `size` is the literal carried by
`VARCHAR(n)` (an int, or a float for a fractional literal), `none` for the
Python `None` default. -/
structure Column where
  name : String
  data_type : Option String := none
  size : Option Value := none
deriving DecidableEq

/-- parser.WhereClause with its two closed variants, `Condition` and
`CompoundCondition`. -/
inductive WhereClause where
  | condition (column : String) (operator : String) (value : Value)
  | compound (left : WhereClause) (operator : String) (right : WhereClause)
deriving DecidableEq

/-- The statement AST: SelectStatement, InsertStatement,
CreateTableStatement. -/
inductive Statement where
  | select (columns : List String) (table : String) (whereClause : Option WhereClause)
  | insert (table : String) (columns : List String) (values : List Value)
  | createTable (table : String) (columns : List Column)
deriving DecidableEq

/-! ## Parser (`parser.py`)

The parser walks the token list; the current token is the head, and Python's
`self.current_token = None` state is the empty list (touching it raises the
`AttributeError` modelled by `Err.noneToken`).  The comma- and AND/OR-driven
loops carry fuel, supplied by the callers as the length of the remaining
token list: every iteration consumes at least two tokens and one unit of
fuel, so `outOfFuel` is unreachable. -/

/-- Parser.expect: verify the current token's type and consume it. -/
def expect (tt : TokenType) : List Token → Except Err (Token × List Token)
  | [] => .error .noneToken
  | t :: ts =>
    if t.type = tt then .ok (t, ts)
    else .error (.expectedToken tt t.type t.position)

/-- Parser.parse_value: a NUMBER or STRING literal. -/
def parse_value : List Token → Except Err (Value × List Token)
  | [] => .error .noneToken
  | t :: ts =>
    if t.type = .NUMBER then .ok (t.value, ts)
    else if t.type = .STRING then .ok (t.value, ts)
    else .error (.expectedValue t.type)

/-- The comparison-operator table of Parser.parse_condition. -/
def cmpOpOf : TokenType → Option String
  | .EQUALS => some "="
  | .GREATER => some ">"
  | .LESS => some "<"
  | .GREATER_EQ => some ">="
  | .LESS_EQ => some "<="
  | .NOT_EQ => some "!="
  | _ => none

/-- Parser.parse_condition: `ident op literal`. -/
def parse_condition (ts : List Token) : Except Err (WhereClause × List Token) := do
  let (ctok, ts) ← expect .IDENTIFIER ts
  match ts with
  | [] => .error .noneToken
  | t :: ts' =>
    match cmpOpOf t.type with
    | some op => do
        let (v, ts'') ← parse_value ts'
        pure (.condition ctok.value.asString op v, ts'')
    | none => .error (.expectedOperator t.type)

/-- The `while current is AND/OR` loop of Parser.parse_where, folding
compound conditions strictly left to right. -/
def parse_where_loop : Nat → WhereClause → List Token → Except Err (WhereClause × List Token)
  | _, _, [] => .error .noneToken
  | 0, _, _ => .error .outOfFuel
  | fuel + 1, left, t :: ts =>
    if t.type = .AND ∨ t.type = .OR then do
      let (right, ts') ← parse_condition ts
      parse_where_loop fuel (.compound left t.value.asString right) ts'
    else .ok (left, t :: ts)

/-- Parser.parse_where: first condition, then the AND/OR fold. -/
def parse_where (ts : List Token) : Except Err (WhereClause × List Token) := do
  let (left, ts') ← parse_condition ts
  parse_where_loop ts'.length left ts'

/-- The `while current is COMMA: expect(IDENTIFIER)` loop shared by
parse_select and parse_insert. -/
def ident_list_loop : Nat → List String → List Token → Except Err (List String × List Token)
  | _, _, [] => .error .noneToken
  | 0, _, _ => .error .outOfFuel
  | fuel + 1, acc, t :: ts =>
    if t.type = .COMMA then
      match ts with
      | [] => .error .noneToken
      | t2 :: ts2 =>
        if t2.type = .IDENTIFIER then
          ident_list_loop fuel (acc ++ [t2.value.asString]) ts2
        else .error (.expectedToken .IDENTIFIER t2.type t2.position)
    else .ok (acc, t :: ts)

/-- The `while current is COMMA: parse_value()` loop of parse_insert. -/
def value_list_loop : Nat → List Value → List Token → Except Err (List Value × List Token)
  | _, _, [] => .error .noneToken
  | 0, _, _ => .error .outOfFuel
  | fuel + 1, acc, t :: ts =>
    if t.type = .COMMA then
      match parse_value ts with
      | .ok (v, ts2) => value_list_loop fuel (acc ++ [v]) ts2
      | .error e => .error e
    else .ok (acc, t :: ts)

/-- Parser.parse_select: `SELECT columns FROM table [WHERE conditions]`. -/
def parse_select (ts : List Token) : Except Err (Statement × List Token) := do
  let (_, ts) ← expect .SELECT ts
  let (columns, ts) ← (
    match ts with
    | [] => .error .noneToken
    | t :: ts' =>
      if t.type = .STAR then pure (["*"], ts')
      else do
        let (ctok, ts'') ← expect .IDENTIFIER (t :: ts')
        ident_list_loop ts''.length [ctok.value.asString] ts'')
  let (_, ts) ← expect .FROM ts
  let (ttok, ts) ← expect .IDENTIFIER ts
  match ts with
  | [] => .error .noneToken
  | t :: ts' =>
    if t.type = .WHERE then do
      let (w, ts'') ← parse_where ts'
      pure (.select columns ttok.value.asString (some w), ts'')
    else pure (.select columns ttok.value.asString none, t :: ts')

/-- Parser.parse_insert: `INSERT INTO table (columns) VALUES (values)`. -/
def parse_insert (ts : List Token) : Except Err (Statement × List Token) := do
  let (_, ts) ← expect .INSERT ts
  let (_, ts) ← expect .INTO ts
  let (ttok, ts) ← expect .IDENTIFIER ts
  let (_, ts) ← expect .LPAREN ts
  let (ctok, ts) ← expect .IDENTIFIER ts
  let (columns, ts) ← ident_list_loop ts.length [ctok.value.asString] ts
  let (_, ts) ← expect .RPAREN ts
  let (_, ts) ← expect .VALUES ts
  let (_, ts) ← expect .LPAREN ts
  let (v, ts) ← parse_value ts
  let (values, ts) ← value_list_loop ts.length [v] ts
  let (_, ts) ← expect .RPAREN ts
  pure (.insert ttok.value.asString columns values, ts)

/-- Parser.parse_column_definition: `ident INT` or
`ident VARCHAR [ ( NUMBER ) ]`. -/
def parse_column_definition (ts : List Token) : Except Err (Column × List Token) := do
  let (ctok, ts) ← expect .IDENTIFIER ts
  match ts with
  | [] => .error .noneToken
  | t :: ts' =>
    if t.type = .INT then
      pure (⟨ctok.value.asString, some "INT", none⟩, ts')
    else if t.type = .VARCHAR then
      match ts' with
      | [] => .error .noneToken
      | t2 :: ts'' =>
        if t2.type = .LPAREN then do
          let (ntok, ts3) ← expect .NUMBER ts''
          let (_, ts4) ← expect .RPAREN ts3
          pure (⟨ctok.value.asString, some "VARCHAR", some ntok.value⟩, ts4)
        else pure (⟨ctok.value.asString, some "VARCHAR", none⟩, t2 :: ts'')
    else .error (.expectedDataType t.type)

/-- The `while current is COMMA: parse_column_definition()` loop of
parse_create_table. -/
def column_def_loop : Nat → List Column → List Token → Except Err (List Column × List Token)
  | _, _, [] => .error .noneToken
  | 0, _, _ => .error .outOfFuel
  | fuel + 1, acc, t :: ts =>
    if t.type = .COMMA then
      match parse_column_definition ts with
      | .ok (col, ts2) => column_def_loop fuel (acc ++ [col]) ts2
      | .error e => .error e
    else .ok (acc, t :: ts)

/-- Parser.parse_create_table: `CREATE TABLE table (column_definitions)`. -/
def parse_create_table (ts : List Token) : Except Err (Statement × List Token) := do
  let (_, ts) ← expect .CREATE ts
  let (_, ts) ← expect .TABLE ts
  let (ttok, ts) ← expect .IDENTIFIER ts
  let (_, ts) ← expect .LPAREN ts
  let (col, ts) ← parse_column_definition ts
  let (columns, ts) ← column_def_loop ts.length [col] ts
  let (_, ts) ← expect .RPAREN ts
  pure (.createTable ttok.value.asString columns, ts)

/-- Parser(tokens).parse(): dispatch on the first token; trailing tokens
after one statement are ignored, as in the source. -/
def parse (ts : List Token) : Except Err Statement :=
  match ts with
  | [] => .error .noneToken
  | t :: _ =>
    if t.type = .SELECT then (parse_select ts).map Prod.fst
    else if t.type = .INSERT then (parse_insert ts).map Prod.fst
    else if t.type = .CREATE then (parse_create_table ts).map Prod.fst
    else .error (.unexpectedStatement t.type)

/-! ## Table store (`storage.py`) -/

/-- storage.Table: name, schema and the ordered row sequence (`rows` starts
empty in `__init__`; `mkTable` is the constructor). -/
structure Table where
  name : String
  columns : List Column
  rows : List Row
deriving DecidableEq

/-- Table(name, columns): a new table with no rows. -/
def mkTable (name : String) (columns : List Column) : Table :=
  ⟨name, columns, []⟩

/-- Table.get_column_names. -/
def Table.get_column_names (t : Table) : List String :=
  t.columns.map Column.name

/-- The first loop of Table.validate_row: every key of the row must name a
declared column, else the unknown-column error for the first offender. -/
def checkRowKeys (tname : String) (columnNames : List String) : List String → Except Err Unit
  | [] => .ok ()
  | k :: ks =>
    if k ∈ columnNames then checkRowKeys tname columnNames ks
    else .error (.columnNotExist k tname)

/-- Python `len(value) > col.size` inside validate_row: an int compared
against whatever the size value is (int or float compare numerically, any
other kind raises the comparison TypeError). -/
def pyGtB (a b : Value) : Except Err Bool :=
  match a.numView, b.numView with
  | some x, some y => .ok (numLtB y x)
  | _, _ =>
    match a, b with
    | .str s, .str t => .ok (strLtB t.data s.data)
    | _, _ => .error (.typeErrorCmp ">" a.typeName b.typeName)

/-- Python `len(value)` for the text values that pass the VARCHAR
isinstance check (other kinds never reach the length comparison). -/
def Value.strLen : Value → Nat
  | .str s => s.length
  | _ => 0

/-- Python truthiness of the optional size (`if col.size and ...`): `None`
and falsy scalars skip the length check. -/
def sizeTruthy : Option Value → Bool
  | none => false
  | some v => v.truthy

/-- The second loop of Table.validate_row: for each declared column present
in the row, the value's runtime kind must match the declared type
(`isinstance` checks), and a truthy VARCHAR size bounds the text length. -/
def checkColumnTypes : List Column → Row → Except Err Unit
  | [], _ => .ok ()
  | col :: cols, row =>
    match dictGet row col.name with
    | none => checkColumnTypes cols row
    | some value =>
      if col.data_type = some "INT" then
        if value.isInt then checkColumnTypes cols row
        else .error (.typeMismatch col.name "INT" value.typeName)
      else if col.data_type = some "VARCHAR" then
        if value.isStr then
          if sizeTruthy col.size then do
            let b ← pyGtB (.int value.strLen) (col.size.getD .pyNone)
            if b then .error (.lengthExceeded col.name (col.size.getD .pyNone))
            else checkColumnTypes cols row
          else checkColumnTypes cols row
        else .error (.typeMismatch col.name "VARCHAR" value.typeName)
      else checkColumnTypes cols row

/-- Table.validate_row: unknown-key check, then per-column kind and length
checks; `True` on success, the first failure's error otherwise. -/
def Table.validate_row (t : Table) (row : Row) : Except Err Bool := do
  checkRowKeys t.name t.get_column_names (row.map Prod.fst)
  checkColumnTypes t.columns row
  pure true

/-- Table.insert: validate, then append. -/
def Table.insert (t : Table) (row : Row) : Except Err Table := do
  let _ ← t.validate_row row
  pure { t with rows := t.rows ++ [row] }

/-- The serialized form of one column inside a table's persistence record. -/
structure ColumnDict where
  name : String
  data_type : Option String
  size : Option Value
deriving DecidableEq

/-- A table's persistence record: `{name, columns, rows}`. -/
structure TableDict where
  name : String
  columns : List ColumnDict
  rows : List Row
deriving DecidableEq

/-- Table.to_dict. -/
def Table.to_dict (t : Table) : TableDict :=
  ⟨t.name, t.columns.map (fun col => ⟨col.name, col.data_type, col.size⟩), t.rows⟩

/-- Table.from_dict. -/
def Table.from_dict (data : TableDict) : Table :=
  ⟨data.name, data.columns.map (fun c => ⟨c.name, c.data_type, c.size⟩), data.rows⟩

/-! ## Storage engine (`storage.py`) -/

/-- storage.StorageEngine's state: the in-memory table mapping and the
persisted per-table records (the `<name>.json` files of the database
directory, keyed by table name). -/
structure StorageEngine where
  tables : List (String × Table)
  disk : List (String × TableDict)
deriving DecidableEq

/-- StorageEngine.save_table: fully rewrite the table's persisted record. -/
def StorageEngine.save_table (e : StorageEngine) (t : Table) : StorageEngine :=
  { e with disk := dictSet e.disk t.name t.to_dict }

/-- StorageEngine.get_table: pure lookup. -/
def StorageEngine.get_table (e : StorageEngine) (name : String) : Option Table :=
  dictGet e.tables name

/-- StorageEngine.create_table: fail if the name is taken, else register an
empty table and persist it. -/
def StorageEngine.create_table (e : StorageEngine) (name : String) (columns : List Column) :
    StorageEngine × Except Err Unit :=
  if (dictGet e.tables name).isSome then (e, .error (.tableExists name))
  else
    let t := mkTable name columns
    let e' := { e with tables := dictSet e.tables name t }
    (e'.save_table t, .ok ())

/-- StorageEngine.insert_row: fail if the table is absent, else delegate to
Table.insert and re-persist the whole table.  An error leaves the engine
exactly as it was. -/
def StorageEngine.insert_row (e : StorageEngine) (table_name : String) (row : Row) :
    StorageEngine × Except Err Unit :=
  match e.get_table table_name with
  | none => (e, .error (.tableNotExist table_name))
  | some t =>
    match t.insert row with
    | .error err => (e, .error err)
    | .ok t' =>
      let e' := { e with tables := dictSet e.tables table_name t' }
      (e'.save_table t', .ok ())

/-! ## Executor (`executor.py`) -/

/-- executor.QueryResult. -/
structure QueryResult where
  columns : List String := []
  rows : List Row := []
  rows_affected : Int := 0
  message : Option String := none
deriving DecidableEq

/-- Python `a == b` for the scalar kinds in play: numbers compare
numerically across int/float, text compares as text, `None` only equals
`None`, and any cross-kind pair is unequal (never an error). -/
def pyEqB (a b : Value) : Bool :=
  match a.numView, b.numView with
  | some x, some y => numEqB x y
  | _, _ =>
    match a, b with
    | .str s, .str t => s == t
    | .pyNone, .pyNone => true
    | _, _ => false

/-- Python `a < b`: numeric or text ordering, TypeError otherwise. -/
def pyLtB (a b : Value) : Except Err Bool :=
  match a.numView, b.numView with
  | some x, some y => .ok (numLtB x y)
  | _, _ =>
    match a, b with
    | .str s, .str t => .ok (strLtB s.data t.data)
    | _, _ => .error (.typeErrorCmp "<" a.typeName b.typeName)

/-- Python `a >= b`: numeric or text ordering, TypeError otherwise. -/
def pyGeB (a b : Value) : Except Err Bool :=
  match a.numView, b.numView with
  | some x, some y => .ok (!numLtB x y)
  | _, _ =>
    match a, b with
    | .str s, .str t => .ok (!strLtB s.data t.data)
    | _, _ => .error (.typeErrorCmp ">=" a.typeName b.typeName)

/-- Python `a <= b`: numeric or text ordering, TypeError otherwise. -/
def pyLeB (a b : Value) : Except Err Bool :=
  match a.numView, b.numView with
  | some x, some y => .ok (!numLtB y x)
  | _, _ =>
    match a, b with
    | .str s, .str t => .ok (!strLtB t.data s.data)
    | _, _ => .error (.typeErrorCmp "<=" a.typeName b.typeName)

/-- Executor.evaluate_condition: look the column up in the row (error when
absent), then apply the operator table to (row value, literal). -/
def evaluate_condition (row : Row) (column operator : String) (value : Value) :
    Except Err Bool :=
  match dictGet row column with
  | none => .error (.columnNotInRow column)
  | some row_value =>
    if operator = "=" then .ok (pyEqB row_value value)
    else if operator = ">" then pyGtB row_value value
    else if operator = "<" then pyLtB row_value value
    else if operator = ">=" then pyGeB row_value value
    else if operator = "<=" then pyLeB row_value value
    else if operator = "!=" then .ok (!pyEqB row_value value)
    else .error (.unknownOperator operator)

/-- Executor.evaluate_where: conditions via evaluate_condition, compounds by
evaluating both operands and combining with AND/OR (no short-circuit, as in
the source). -/
def evaluate_where (row : Row) : WhereClause → Except Err Bool
  | .condition column operator value => evaluate_condition row column operator value
  | .compound left operator right => do
      let left_result ← evaluate_where row left
      let right_result ← evaluate_where row right
      if operator = "AND" then pure (left_result && right_result)
      else if operator = "OR" then pure (left_result || right_result)
      else .error (.unknownLogicalOperator operator)

/-- The WHERE list comprehension of execute_select: keep the rows whose
evaluation is true, propagating the leftmost evaluation error. -/
def filterRows (w : WhereClause) : List Row → Except Err (List Row)
  | [] => .ok []
  | r :: rs => do
      let b ← evaluate_where r w
      let rest ← filterRows w rs
      pure (if b then r :: rest else rest)

/-- The explicit-column validation loop of execute_select: the first
requested name that is not declared fails. -/
def checkSelectColumns (table : String) (tableColumns : List String) :
    List String → Except Err Unit
  | [] => .ok ()
  | c :: cs =>
    if c ∈ tableColumns then checkSelectColumns table tableColumns cs
    else .error (.columnNotExist c table)

/-- The projection dict comprehension `{col: row.get(col) for col in columns}`
(an absent column projects to `None`). -/
def projectRow (columns : List String) (row : Row) : Row :=
  dictOfPairs (columns.map fun c => (c, (dictGet row c).getD .pyNone))

/-- Executor.execute_select: fetch the table, filter by WHERE, resolve the
column list (`['*']` means schema order, an explicit list is validated and
used verbatim), project. -/
def execute_select (e : StorageEngine) (columns : List String) (table : String)
    (whereClause : Option WhereClause) : Except Err QueryResult := do
  match e.get_table table with
  | none => .error (.tableNotExist table)
  | some t => do
    let rows ← match whereClause with
      | some w => filterRows w t.rows
      | none => pure t.rows
    let cols ← (
      if columns = ["*"] then pure t.get_column_names
      else do
        checkSelectColumns table t.get_column_names columns
        pure columns)
    pure { columns := cols, rows := rows.map (projectRow cols) }

/-- Executor.execute_insert: pair columns with values positionally into a
dict (`dict(zip(...))`), then insert through the storage engine. -/
def execute_insert (e : StorageEngine) (table : String) (columns : List String)
    (values : List Value) : StorageEngine × Except Err QueryResult :=
  let row := dictOfPairs (columns.zip values)
  match e.insert_row table row with
  | (e', .ok _) =>
      (e', .ok { rows_affected := 1, message := some s!"1 row inserted into '{table}'" })
  | (e', .error err) => (e', .error err)

/-- Executor.execute_create_table. -/
def execute_create_table (e : StorageEngine) (table : String) (columns : List Column) :
    StorageEngine × Except Err QueryResult :=
  match e.create_table table columns with
  | (e', .ok _) =>
      (e', .ok { message := some s!"Table '{table}' created successfully" })
  | (e', .error err) => (e', .error err)

/-- Executor.execute: dispatch on the statement variant. -/
def Executor.execute (e : StorageEngine) : Statement → StorageEngine × Except Err QueryResult
  | .select columns table whereClause => (e, execute_select e columns table whereClause)
  | .insert table columns values => execute_insert e table columns values
  | .createTable table columns => execute_create_table e table columns

/-! ## QueryResult rendering (`QueryResult.__str__`) -/

/-- Python `str(row.get(col, ''))`: the cell text for one column of one row. -/
def cellStr (row : Row) (col : String) : String :=
  ((dictGet row col).getD (.str "")).pyStr

/-- The column width `__str__` computes: start from the header length, then
fold the rows with `max` over cell lengths. -/
def colWidth (qr : QueryResult) (col : String) : Nat :=
  qr.rows.foldl (fun w row => max w (cellStr row col).length) col.length

/-- Python `s.ljust(w)`: left-justify by appending spaces up to width `w`. -/
def ljust (s : String) (w : Nat) : String :=
  s ++ String.mk (List.replicate (w - s.length) ' ')

/-- A dash run of the given width (`'-' * w`). -/
def dashes (w : Nat) : String :=
  String.mk (List.replicate w '-')

/-- QueryResult.__str__: a truthy message verbatim; else the rows-affected
line when there are no rows; else header, separator, one line per row, and a
final element that starts with a newline (hence the trailing blank line)
carrying the row count. -/
def QueryResult.render (qr : QueryResult) : String :=
  if (match qr.message with | some m => m != "" | none => false : Bool) then
    qr.message.getD ""
  else if qr.rows = [] then s!"({qr.rows_affected} rows affected)"
  else
    let header := String.intercalate " | "
      (qr.columns.map fun col => ljust col (colWidth qr col))
    let separator := String.intercalate "-+-"
      (qr.columns.map fun col => dashes (colWidth qr col))
    let rowLines := qr.rows.map fun row =>
      String.intercalate " | "
        (qr.columns.map fun col => ljust (cellStr row col) (colWidth qr col))
    String.intercalate "\n"
      ([header, separator] ++ rowLines ++ [s!"\n({qr.rows.length} rows)"])

/-- The claim's width rule, stated the spec's way: per column, the widest of
the header and every cell value. -/
def specColWidth (qr : QueryResult) (col : String) : Nat :=
  max col.length ((qr.rows.map fun row => (cellStr row col).length).foldr max 0)

/-- The claim's table form, stated the spec's way: header of column names, a
dash separator sized per column, one line per row with each value padded to
its column width, and a trailing blank line plus the row count. -/
def renderSpecTable (qr : QueryResult) : String :=
  String.intercalate "\n"
    ([String.intercalate " | " (qr.columns.map fun col => ljust col (specColWidth qr col)),
      String.intercalate "-+-" (qr.columns.map fun col => dashes (specColWidth qr col))]
     ++ qr.rows.map (fun row => String.intercalate " | "
          (qr.columns.map fun col => ljust (cellStr row col) (specColWidth qr col)))
     ++ [s!"\n({qr.rows.length} rows)"])

/-! ## SQL engine (`sql_engine.py`) -/

/-- The try-block of SQLEngine.execute: tokenize, parse, execute, threading
the storage state; the first error aborts the pipeline. -/
def runPipeline (e : StorageEngine) (sql : String) : StorageEngine × Except Err QueryResult :=
  match tokenize sql with
  | .error err => (e, .error err)
  | .ok tokens =>
    match parse tokens with
    | .error err => (e, .error err)
    | .ok ast => Executor.execute e ast

/-- SQLEngine.execute: run the pipeline and convert any error into a
QueryResult whose message is `"Error: " + str(e)`; never raises. -/
def SQLEngine.execute (e : StorageEngine) (sql : String) : StorageEngine × QueryResult :=
  match runPipeline e sql with
  | (e', .ok r) => (e', r)
  | (e', .error err) => (e', { message := some ("Error: " ++ err.message) })

/-! ## Token-chain fixtures used to state the parser and lexer claims -/

/-- The six comparison-operator strings of the parser's operator table. -/
def cmpOps : List String :=
  ["=", ">", "<", ">=", "<=", "!="]

/-- The token type whose `cmpOpOf` image is the given operator string. -/
def cmpTokOf : String → TokenType
  | ">" => .GREATER
  | "<" => .LESS
  | ">=" => .GREATER_EQ
  | "<=" => .LESS_EQ
  | "!=" => .NOT_EQ
  | _ => .EQUALS

/-- The three tokens of one comparison condition `col op value` (positions
zero: the parser never reads them on this path). -/
def condToks (col op : String) (v : Value) : List Token :=
  [⟨.IDENTIFIER, .str col, 0⟩, ⟨cmpTokOf op, .str op, 0⟩, ⟨.NUMBER, v, 0⟩]

/-- An AND or OR keyword token as the lexer produces it. -/
def andOrTok (isAnd : Bool) : Token :=
  if isAnd then ⟨.AND, .str "AND", 0⟩ else ⟨.OR, .str "OR", 0⟩

/-- Token rendering of a `(AND|OR) condition` chain tail. -/
def chainToks : List (Bool × String × String × Value) → List Token
  | [] => []
  | (b, col, op, v) :: rest => andOrTok b :: (condToks col op v ++ chainToks rest)

/-- The strictly left-associated fold of a condition chain: what the claim
says `parse_where` builds. -/
def chainFold (left : WhereClause) : List (Bool × String × String × Value) → WhereClause
  | [] => left
  | (b, col, op, v) :: rest =>
      chainFold (.compound left (if b then "AND" else "OR") (.condition col op v)) rest

/-! ## Helper lemmas -/

theorem dictGet_dictSet_self {α : Type} (d : List (String × α)) (k : String) (v : α) :
    dictGet (dictSet d k v) k = some v := by
  induction d with
  | nil => simp [dictSet, dictGet]
  | cons kv rest ih =>
    by_cases h : kv.1 = k
    · simp [dictSet, h, dictGet]
    · simpa [dictSet, h, dictGet] using ih

theorem checkRowKeys_ok_mem (tname : String) (names : List String) (ks : List String)
    (h : checkRowKeys tname names ks = .ok ()) : ∀ k ∈ ks, k ∈ names := by
  induction ks with
  | nil => simp
  | cons k ks ih =>
    by_cases hk : k ∈ names
    · simp only [checkRowKeys, if_pos hk] at h
      intro x hx
      rcases List.mem_cons.mp hx with rfl | hx
      · exact hk
      · exact ih h x hx
    · simp [checkRowKeys, if_neg hk] at h

theorem dictGet_of_mem_nodup {α : Type} (row : List (String × α)) (k : String) (v : α)
    (hmem : (k, v) ∈ row) (hnodup : (row.map Prod.fst).Nodup) :
    dictGet row k = some v := by
  induction row with
  | nil => simp at hmem
  | cons kv rest ih =>
    rcases List.mem_cons.mp hmem with rfl | hmemr
    · simp [dictGet]
    · obtain ⟨hnotin, hnd⟩ := List.nodup_cons.mp hnodup
      have hne : kv.1 ≠ k := by
        intro hkk
        exact hnotin (hkk ▸ List.mem_map_of_mem Prod.fst hmemr)
      simp only [dictGet, if_neg hne]
      exact ih hmemr hnd

theorem checkColumnTypes_ok (cols : List Column) (row : Row)
    (h : checkColumnTypes cols row = .ok ()) :
    ∀ col ∈ cols, ∀ v, dictGet row col.name = some v →
      (col.data_type = some "INT" → v.isInt = true) ∧
      (col.data_type = some "VARCHAR" → v.isStr = true) := by
  induction cols with
  | nil => simp
  | cons col cols ih =>
    intro c hc v hv
    rcases List.mem_cons.mp hc with rfl | hcs
    · simp only [checkColumnTypes, hv] at h
      constructor
      · intro hdt
        rw [if_pos hdt] at h
        cases hb : v.isInt with
        | true => rfl
        | false => rw [hb] at h; simp at h
      · intro hdt
        have hne : c.data_type ≠ some "INT" := by simp [hdt]
        rw [if_neg hne, if_pos hdt] at h
        cases hb : v.isStr with
        | true => rfl
        | false => rw [hb] at h; simp at h
    · -- the tail is checked whatever the head check did, as long as the whole run succeeded
      have htail : checkColumnTypes cols row = .ok () := by
        rcases hg : dictGet row col.name with _ | w
        · simpa only [checkColumnTypes, hg] using h
        · simp only [checkColumnTypes, hg] at h
          by_cases hint : col.data_type = some "INT"
          · rw [if_pos hint] at h
            cases hb : w.isInt with
            | true => rwa [if_pos hb] at h
            | false => rw [hb] at h; simp at h
          · rw [if_neg hint] at h
            by_cases hvc : col.data_type = some "VARCHAR"
            · rw [if_pos hvc] at h
              cases hb : w.isStr with
              | false => rw [hb] at h; simp at h
              | true =>
                rw [if_pos hb] at h
                by_cases htr : sizeTruthy col.size = true
                · rw [if_pos htr] at h
                  rcases hgt : pyGtB (.int w.strLen) (col.size.getD .pyNone) with err | b
                  · simp [hgt, Bind.bind, Except.bind] at h
                  · simp only [hgt, Bind.bind, Except.bind] at h
                    cases b with
                    | true => simp at h
                    | false => simpa using h
                · rwa [if_neg htr] at h
            · rwa [if_neg hvc] at h
      exact ih htail c hcs v hv

/-! ## C4: serialization round-trip -/

/-- C4: for every Table (any name, any ordered column definitions, any row
sequence), `Table.from_dict (Table.to_dict t)` is `t` itself: same name,
same column definitions in the same order, identical rows. -/
theorem table_serialization_round_trip (t : Table) :
    Table.from_dict (Table.to_dict t) = t := by
  cases t with
  | mk name columns rows =>
    simp only [Table.to_dict, Table.from_dict, List.map_map, Table.mk.injEq,
      true_and, and_true]
    induction columns with
    | nil => rfl
    | cons c cs ih => cases c; simpa using ih

/-! ## C2: insert is atomic with respect to validation -/

/-- C2: a row failing `validate_row` makes `Table.insert` raise that same
error without appending, and `StorageEngine.insert_row` then returns the
engine completely unchanged (in-memory tables and persisted records alike);
a row passing validation is appended, growing the row count by exactly one,
and the table's persisted record is rewritten to the grown table. -/
theorem table_insert_atomic (e : StorageEngine) (name : String) (t : Table) (row : Row)
    (ht : e.get_table name = some t) :
    (∀ err, t.validate_row row = .error err →
        t.insert row = .error err ∧ e.insert_row name row = (e, .error err)) ∧
    (t.validate_row row = .ok true →
        t.insert row = .ok { t with rows := t.rows ++ [row] } ∧
        ({ t with rows := t.rows ++ [row] } : Table).rows.length = t.rows.length + 1 ∧
        ∃ e', e.insert_row name row = (e', .ok ()) ∧
          e'.get_table name = some { t with rows := t.rows ++ [row] } ∧
          dictGet e'.disk t.name =
            some (Table.to_dict { t with rows := t.rows ++ [row] })) := by
  constructor
  · intro err herr
    have hins : t.insert row = .error err := by
      simp [Table.insert, herr, Bind.bind, Except.bind]
    refine ⟨hins, ?_⟩
    simp [StorageEngine.insert_row, ht, hins]
  · intro hok
    have hins : t.insert row = .ok { t with rows := t.rows ++ [row] } := by
      simp [Table.insert, hok, Bind.bind, Except.bind, pure, Except.pure]
    refine ⟨hins, by simp, ?_⟩
    refine ⟨⟨dictSet e.tables name { t with rows := t.rows ++ [row] },
        dictSet e.disk t.name (Table.to_dict { t with rows := t.rows ++ [row] })⟩,
      ?_, ?_, ?_⟩
    · simp [StorageEngine.insert_row, ht, hins, StorageEngine.save_table]
    · simp [StorageEngine.get_table, dictGet_dictSet_self]
    · simp [dictGet_dictSet_self]

/-- C2 witness: a concrete engine whose table `u` declares `id INT`; the row
binding `id` to text fails validation and leaves everything unchanged, while
the row binding `id` to an integer is appended. -/
theorem table_insert_atomic_witness :
    (PySql.StorageEngine.insert_row ⟨[("u", ⟨"u", [⟨"id", some "INT", none⟩], []⟩)], []⟩
        "u" [("id", .str "x")] =
      (⟨[("u", ⟨"u", [⟨"id", some "INT", none⟩], []⟩)], []⟩,
        .error (.typeMismatch "id" "INT" "str"))) ∧
    (Table.insert ⟨"u", [⟨"id", some "INT", none⟩], []⟩ [("id", .int 7)] =
      .ok ⟨"u", [⟨"id", some "INT", none⟩], [[("id", .int 7)]]⟩) := by
  constructor
  · exact ((table_insert_atomic ⟨[("u", ⟨"u", [⟨"id", some "INT", none⟩], []⟩)], []⟩
      "u" ⟨"u", [⟨"id", some "INT", none⟩], []⟩ [("id", .str "x")] (by decide)).1
      (.typeMismatch "id" "INT" "str") (by decide)).2
  · exact ((table_insert_atomic ⟨[("u", ⟨"u", [⟨"id", some "INT", none⟩], []⟩)], []⟩
      "u" ⟨"u", [⟨"id", some "INT", none⟩], []⟩ [("id", .int 7)] (by decide)).2
      (by decide)).1

/-! ## C10: floating-point values are never storable -/

/-- C10: on any table whose schema declares only INT and VARCHAR columns, a
candidate row (well-formed: unique keys, as every Python dict's are) holding
at least one floating-point value always fails validation — a float is
neither a Python `int` nor a Python `str` — so `Table.insert` raises and
`StorageEngine.insert_row` leaves the engine untouched: no row holding a
float is ever appended or persisted. -/
theorem float_values_never_insertable (t : Table) (row : Row) (k : String)
    (num : Int) (scale : Nat)
    (hschema : ∀ col ∈ t.columns, col.data_type = some "INT" ∨ col.data_type = some "VARCHAR")
    (hnodup : (row.map Prod.fst).Nodup)
    (hmem : (k, Value.float num scale) ∈ row) :
    ∃ err, t.validate_row row = .error err ∧ t.insert row = .error err ∧
      ∀ (e : StorageEngine) (name : String), e.get_table name = some t →
        e.insert_row name row = (e, .error err) := by
  have hval : ∃ err, t.validate_row row = .error err := by
    rcases hk : checkRowKeys t.name t.get_column_names (row.map Prod.fst) with err | u
    · exact ⟨err, by simp [Table.validate_row, hk, Bind.bind, Except.bind]⟩
    · cases u
      rcases hc : checkColumnTypes t.columns row with err | u2
      · exact ⟨err, by simp [Table.validate_row, hk, hc, Bind.bind, Except.bind]⟩
      · exfalso
        have hkeys := checkRowKeys_ok_mem _ _ _ hk
        have hkmem : k ∈ row.map Prod.fst := List.mem_map_of_mem Prod.fst hmem
        have hknames : k ∈ t.get_column_names := hkeys k hkmem
        obtain ⟨col, hcolmem, hcolname⟩ := List.mem_map.mp hknames
        have hlook : dictGet row k = some (Value.float num scale) :=
          dictGet_of_mem_nodup _ _ _ hmem hnodup
        cases u2
        have hchecked := checkColumnTypes_ok _ _ hc col hcolmem
          (Value.float num scale) (by rw [hcolname]; exact hlook)
        rcases hschema col hcolmem with hdt | hdt
        · have := hchecked.1 hdt
          simp [Value.isInt] at this
        · have := hchecked.2 hdt
          simp [Value.isStr] at this
  obtain ⟨err, herr⟩ := hval
  have hins : t.insert row = .error err := by
    simp [Table.insert, herr, Bind.bind, Except.bind]
  refine ⟨err, herr, hins, ?_⟩
  intro e name ht
  simp [StorageEngine.insert_row, ht, hins]

/-- C10 witness: the table `m(x INT)` and the row binding `x` to the float
`1.5` (mantissa 15, scale 1). -/
theorem float_values_never_insertable_witness :
    ∃ err, Table.validate_row ⟨"m", [⟨"x", some "INT", none⟩], []⟩
        [("x", .float 15 1)] = .error err ∧
      Table.insert ⟨"m", [⟨"x", some "INT", none⟩], []⟩ [("x", .float 15 1)] = .error err ∧
      ∀ (e : StorageEngine) (name : String),
        e.get_table name = some ⟨"m", [⟨"x", some "INT", none⟩], []⟩ →
        e.insert_row name [("x", .float 15 1)] = (e, .error err) :=
  float_values_never_insertable ⟨"m", [⟨"x", some "INT", none⟩], []⟩
    [("x", .float 15 1)] "x" 15 1 (by decide) (by decide) (by decide)

/-! ## C8: positional insert pairing truncates silently -/

theorem dictSet_eq_append {α : Type} (d : List (String × α)) (k : String) (v : α)
    (h : k ∉ d.map Prod.fst) : dictSet d k v = d ++ [(k, v)] := by
  induction d with
  | nil => rfl
  | cons kv rest ih =>
    obtain ⟨k', v'⟩ := kv
    have hne : k' ≠ k := by
      intro he
      exact h (by simp [he])
    simp only [dictSet, if_neg hne, List.cons_append, List.cons.injEq, true_and]
    exact ih (by intro hm; exact h (by simp [hm]))

theorem foldl_dictSet_of_nodup {α : Type} (ps : List (String × α)) :
    ∀ acc : List (String × α), (acc.map Prod.fst ++ ps.map Prod.fst).Nodup →
      ps.foldl (fun d kv => dictSet d kv.1 kv.2) acc = acc ++ ps := by
  induction ps with
  | nil =>
    intro acc _
    simp
  | cons kv ps ih =>
    intro acc hnd
    obtain ⟨k, v⟩ := kv
    have hk : k ∉ acc.map Prod.fst := by
      intro hm
      rcases List.nodup_append.mp hnd with ⟨_, _, hdisj⟩
      exact hdisj hm (by simp)
    have hstep : dictSet acc k v = acc ++ [(k, v)] := dictSet_eq_append _ _ _ hk
    have hnd' : ((acc ++ [(k, v)]).map Prod.fst ++ ps.map Prod.fst).Nodup := by
      simpa [List.append_assoc] using hnd
    calc ((k, v) :: ps).foldl (fun d kv => dictSet d kv.1 kv.2) acc
        = ps.foldl (fun d kv => dictSet d kv.1 kv.2) (dictSet acc k v) := by simp
      _ = ps.foldl (fun d kv => dictSet d kv.1 kv.2) (acc ++ [(k, v)]) := by rw [hstep]
      _ = (acc ++ [(k, v)]) ++ ps := ih (acc ++ [(k, v)]) hnd'
      _ = acc ++ (k, v) :: ps := by simp

theorem dictOfPairs_eq_self {α : Type} (ps : List (String × α))
    (h : (ps.map Prod.fst).Nodup) : dictOfPairs ps = ps := by
  simpa [dictOfPairs] using foldl_dictSet_of_nodup ps [] (by simpa using h)

theorem zip_map_fst {α β : Type} (l₁ : List α) (l₂ : List β) :
    (l₁.zip l₂).map Prod.fst = l₁.take l₂.length := by
  induction l₁ generalizing l₂ with
  | nil => simp
  | cons a l ih =>
    cases l₂ with
    | nil => simp
    | cons b l₂ => simp [ih]

theorem zip_map_snd {α β : Type} (l₁ : List α) (l₂ : List β) :
    (l₁.zip l₂).map Prod.snd = l₂.take l₁.length := by
  induction l₁ generalizing l₂ with
  | nil => simp
  | cons a l ih =>
    cases l₂ with
    | nil => simp
    | cons b l₂ => simp [ih]

/-- C8 (amended: with pairwise-distinct column names, as any sensible INSERT
has — repeated names additionally collapse in the dict): execute_insert
pairs names with values position by position, truncating to the shorter
list; the built row's keys and values are the truncated lists, its size is
`min` of the two lengths, and the pairing step itself never raises — the
result of execute_insert is exactly the result of handing the truncated row
to the storage engine. -/
theorem execute_insert_truncates (e : StorageEngine) (table : String)
    (columns : List String) (values : List Value) (h : columns.Nodup) :
    (dictOfPairs (columns.zip values)).map Prod.fst = columns.take values.length ∧
    (dictOfPairs (columns.zip values)).map Prod.snd = values.take columns.length ∧
    (dictOfPairs (columns.zip values)).length = min columns.length values.length ∧
    execute_insert e table columns values =
      (match e.insert_row table (dictOfPairs (columns.zip values)) with
       | (e', .ok _) => (e', .ok ⟨[], [], 1, some s!"1 row inserted into '{table}'"⟩)
       | (e', .error err) => (e', .error err)) := by
  have hnd : ((columns.zip values).map Prod.fst).Nodup := by
    rw [zip_map_fst]
    exact (List.take_sublist _ _).nodup h
  have hself := dictOfPairs_eq_self _ hnd
  refine ⟨by rw [hself, zip_map_fst], by rw [hself, zip_map_snd], ?_, rfl⟩
  rw [hself, List.length_zip]

/-- C8 witness: three distinct columns and two values build a two-entry
row. -/
theorem execute_insert_truncates_witness :
    (dictOfPairs ((["a", "b", "c"] : List String).zip [Value.int 1, Value.int 2])).length =
      min (3 : Nat) 2 := by
  have h := (execute_insert_truncates ⟨[], []⟩ "t" ["a", "b", "c"]
    [Value.int 1, Value.int 2] (by decide)).2.2.1
  simpa using h

/-- C8 counterexample: with the duplicated column list `a, a, b` and two
values, the lists' lengths differ (3 vs 2) yet the built row holds a single
entry, not `min 3 2 = 2` — and the later value wins for the repeated name. -/
theorem execute_insert_truncates_counterexample :
    (["a", "a", "b"] : List String).length ≠ ([Value.int 1, Value.int 2] : List Value).length ∧
    dictOfPairs ((["a", "a", "b"] : List String).zip [Value.int 1, Value.int 2]) =
      [("a", Value.int 2)] ∧
    (dictOfPairs ((["a", "a", "b"] : List String).zip [Value.int 1, Value.int 2])).length ≠
      min (["a", "a", "b"] : List String).length
        ([Value.int 1, Value.int 2] : List Value).length := by
  decide

/-! ## C9: QueryResult rendering -/

theorem foldl_max_eq (l : List Nat) (a : Nat) : l.foldl max a = max a (l.foldr max 0) := by
  induction l generalizing a with
  | nil => simp
  | cons b l ih => simp [ih (max a b), Nat.max_assoc]

theorem colWidth_eq_spec (qr : QueryResult) (col : String) :
    colWidth qr col = specColWidth qr col := by
  unfold colWidth specColWidth
  rw [← List.foldl_map (fun row => (cellStr row col).length) max qr.rows col.length]
  exact foldl_max_eq _ _

/-- C9 (amended: a message counts as set only when it is non-empty — Python
tests the message's truthiness, so the empty string falls through): a
QueryResult with a truthy message renders it verbatim; with no rows it
renders the rows-affected line; otherwise the table — header of column
names, a dash separator sized per column to the widest value or header, one
line per row with each value left-justified (space-padded on the right) to
its column width, and a trailing blank line before the row count. -/
theorem queryresult_render_characterization (qr : QueryResult) :
    (∀ m, qr.message = some m → m ≠ "" → qr.render = m) ∧
    ((qr.message = none ∨ qr.message = some "") → qr.rows = [] →
        qr.render = s!"({qr.rows_affected} rows affected)") ∧
    ((qr.message = none ∨ qr.message = some "") → qr.rows ≠ [] →
        qr.render = renderSpecTable qr) := by
  refine ⟨?_, ?_, ?_⟩
  · intro m hm hne
    have hb : (m != "") = true := bne_iff_ne.mpr hne
    simp [QueryResult.render, hm, hb]
  · intro hmsg hrows
    have hcond : (match qr.message with | some m => m != "" | none => false) = false := by
      rcases hmsg with h | h <;> simp [h]
    simp only [QueryResult.render, hcond, Bool.false_eq_true, if_false, if_pos hrows]
  · intro hmsg hrows
    have hcond : (match qr.message with | some m => m != "" | none => false) = false := by
      rcases hmsg with h | h <;> simp [h]
    simp only [QueryResult.render, hcond, Bool.false_eq_true, if_false, if_neg hrows,
      renderSpecTable, colWidth_eq_spec]

/-- C9 witness: a truthy message renders verbatim. -/
theorem queryresult_render_characterization_witness :
    (⟨[], [], 2, some "hi"⟩ : QueryResult).render = "hi" :=
  (queryresult_render_characterization ⟨[], [], 2, some "hi"⟩).1 "hi" rfl (by decide)

/-- C9 counterexample to the claim as stated: the empty-string message is
set, yet the rendering is the rows-affected line, not the message
verbatim. -/
theorem queryresult_render_counterexample :
    (⟨[], [], 0, some ""⟩ : QueryResult).message = some "" ∧
    (⟨[], [], 0, some ""⟩ : QueryResult).render = "(0 rows affected)" ∧
    (⟨[], [], 0, some ""⟩ : QueryResult).render ≠ "" := by
  refine ⟨rfl, ?_, ?_⟩ <;> decide

/-! ## C1: the execute boundary catches everything -/

theorem insert_row_cases (e : StorageEngine) (name : String) (row : Row) :
    (∃ err, e.insert_row name row = (e, .error err)) ∨
    (∃ e', e.insert_row name row = (e', .ok ())) := by
  rcases hg : e.get_table name with _ | t
  · simp only [StorageEngine.insert_row, hg]
    exact .inl ⟨_, rfl⟩
  · rcases hi : t.insert row with err | t'
    · simp only [StorageEngine.insert_row, hg, hi]
      exact .inl ⟨err, rfl⟩
    · simp only [StorageEngine.insert_row, hg, hi]
      exact .inr ⟨_, rfl⟩

theorem create_table_cases (e : StorageEngine) (name : String) (cols : List Column) :
    (∃ err, e.create_table name cols = (e, .error err)) ∨
    (∃ e', e.create_table name cols = (e', .ok ())) := by
  unfold StorageEngine.create_table
  by_cases h : (dictGet e.tables name).isSome
  · rw [if_pos h]
    exact .inl ⟨_, rfl⟩
  · rw [if_neg h]
    exact .inr ⟨_, rfl⟩

theorem runPipeline_error_state (e : StorageEngine) (sql : String) (st : StorageEngine)
    (err : Err) (h : runPipeline e sql = (st, .error err)) : st = e := by
  rcases htok : tokenize sql with terr | toks
  · simp only [runPipeline, htok] at h
    cases h
    rfl
  · rcases hp : parse toks with perr | ast
    · simp only [runPipeline, htok, hp] at h
      cases h
      rfl
    · simp only [runPipeline, htok, hp] at h
      cases ast with
      | select cols table w =>
        simp only [Executor.execute] at h
        exact (Prod.ext_iff.mp h).1.symm
      | insert table cols vals =>
        simp only [Executor.execute, execute_insert] at h
        rcases insert_row_cases e table (dictOfPairs (cols.zip vals)) with ⟨err2, heq⟩ | ⟨e2, heq⟩
        · rw [heq] at h
          cases h
          rfl
        · rw [heq] at h
          simp at h
      | createTable table cols =>
        simp only [Executor.execute, execute_create_table] at h
        rcases create_table_cases e table cols with ⟨err2, heq⟩ | ⟨e2, heq⟩
        · rw [heq] at h
          cases h
          rfl
        · rw [heq] at h
          simp at h

/-- C1: SQLEngine.execute never raises (it is a total function of the engine
state and the SQL text): whenever any stage of the tokenize/parse/execute
pipeline fails, the failure is converted at this single boundary into a
QueryResult whose message is exactly `"Error: "` followed by the error's
description, and the engine state is left exactly as it was (no partial
mutation survives); when the pipeline succeeds its result is returned
untouched. -/
theorem sqlengine_execute_catches_all (e : StorageEngine) (sql : String) :
    (∀ st err, runPipeline e sql = (st, .error err) →
        st = e ∧ SQLEngine.execute e sql =
          (e, ⟨[], [], 0, some ("Error: " ++ err.message)⟩)) ∧
    (∀ st r, runPipeline e sql = (st, .ok r) → SQLEngine.execute e sql = (st, r)) := by
  constructor
  · intro st err h
    have hst := runPipeline_error_state e sql st err h
    subst hst
    refine ⟨rfl, ?_⟩
    simp [SQLEngine.execute, h]
  · intro st r h
    simp [SQLEngine.execute, h]

/-- C1 witness: a SELECT on a missing table errors inside the executor and
surfaces as the prefixed message with the engine unchanged. -/
theorem sqlengine_execute_catches_all_witness :
    SQLEngine.execute ⟨[], []⟩ "SELECT * FROM missing" =
      (⟨[], []⟩, ⟨[], [], 0, some ("Error: " ++ (Err.tableNotExist "missing").message)⟩) :=
  ((sqlengine_execute_catches_all ⟨[], []⟩ "SELECT * FROM missing").1 ⟨[], []⟩
    (.tableNotExist "missing") (by decide)).2

/-! ## C3: WHERE filtering is pointwise -/

theorem filterRows_ok (w : WhereClause) (rows res : List Row)
    (h : filterRows w rows = .ok res) :
    res = rows.filter fun r => decide (evaluate_where r w = .ok true) := by
  induction rows generalizing res with
  | nil =>
    simp only [filterRows, Except.ok.injEq] at h
    simp [h.symm]
  | cons r rs ih =>
    simp only [filterRows, Bind.bind, Except.bind] at h
    rcases he : evaluate_where r w with err | b
    · rw [he] at h
      simp at h
    · rw [he] at h
      rcases hf : filterRows w rs with err | rest
      · rw [hf] at h
        simp at h
      · rw [hf] at h
        simp only [pure, Except.pure, Except.ok.injEq] at h
        subst h
        cases b with
        | true => simp [List.filter_cons, he, ih rest hf]
        | false => simp [List.filter_cons, he, ih rest hf]

/-- C3: whenever a SELECT with a WHERE clause executes successfully, its
rows are exactly the stored rows for which `evaluate_where` is true — each
row judged independently, kept in stored order — projected to the result's
columns. -/
theorem select_where_pointwise (e : StorageEngine) (t : Table) (cols : List String)
    (table : String) (w : WhereClause) (r : QueryResult)
    (ht : e.get_table table = some t)
    (h : execute_select e cols table (some w) = .ok r) :
    r.rows = ((t.rows.filter fun row => decide (evaluate_where row w = .ok true)).map
      (projectRow r.columns)) := by
  simp only [execute_select, ht] at h
  rcases hf : filterRows w t.rows with err | rows
  · rw [hf] at h
    simp [Bind.bind, Except.bind] at h
  · rw [hf] at h
    simp only [Bind.bind, Except.bind] at h
    by_cases hstar : cols = ["*"]
    · rw [if_pos hstar] at h
      simp only [pure, Except.pure, Except.ok.injEq] at h
      subst h
      simp [filterRows_ok w t.rows rows hf]
    · rw [if_neg hstar] at h
      rcases hchk : checkSelectColumns table t.get_column_names cols with err | u
      · rw [hchk] at h
        simp at h
      · rw [hchk] at h
        cases u
        simp only [pure, Except.pure, Except.ok.injEq] at h
        subst h
        simp [filterRows_ok w t.rows rows hf]

/-- C3 witness: a two-row table filtered by `a > 1` keeps exactly the
matching row. -/
theorem select_where_pointwise_witness :
    ([[("a", Value.int 1)], [("a", Value.int 2)]].filter fun row =>
        decide (evaluate_where row (.condition "a" ">" (.int 1)) = .ok true)) =
      [[("a", Value.int 2)]] ∧
    (⟨["a"], [[("a", Value.int 2)]], 0, none⟩ : QueryResult).rows =
      (([[("a", Value.int 1)], [("a", Value.int 2)]].filter fun row =>
          decide (evaluate_where row (.condition "a" ">" (.int 1)) = .ok true)).map
        (projectRow (⟨["a"], [[("a", Value.int 2)]], 0, none⟩ : QueryResult).columns)) := by
  refine ⟨by decide, ?_⟩
  exact select_where_pointwise
    ⟨[("t", ⟨"t", [⟨"a", some "INT", none⟩],
        [[("a", Value.int 1)], [("a", Value.int 2)]]⟩)], []⟩
    ⟨"t", [⟨"a", some "INT", none⟩], [[("a", Value.int 1)], [("a", Value.int 2)]]⟩
    ["a"] "t" (.condition "a" ">" (.int 1))
    ⟨["a"], [[("a", Value.int 2)]], 0, none⟩ (by decide) (by decide)

/-! ## C5: SELECT column resolution -/

theorem checkSelectColumns_ok (table : String) (names cols : List String)
    (hall : ∀ c ∈ cols, c ∈ names) :
    checkSelectColumns table names cols = .ok () := by
  induction cols with
  | nil => rfl
  | cons c cs ih =>
    simp only [checkSelectColumns, if_pos (hall c (by simp))]
    exact ih fun d hd => hall d (by simp [hd])

theorem checkSelectColumns_error (table : String) (names cols : List String)
    (hmiss : ∃ c ∈ cols, c ∉ names) :
    ∃ c, checkSelectColumns table names cols = .error (.columnNotExist c table) ∧
      c ∈ cols ∧ c ∉ names := by
  induction cols with
  | nil => simp at hmiss
  | cons c cs ih =>
    by_cases hm : c ∈ names
    · obtain ⟨d, hd, hdn⟩ := hmiss
      rcases List.mem_cons.mp hd with rfl | hd'
      · exact absurd hm hdn
      · obtain ⟨c', h1, h2, h3⟩ := ih ⟨d, hd', hdn⟩
        exact ⟨c', by simp only [checkSelectColumns, if_pos hm]; exact h1, by simp [h2], h3⟩
    · exact ⟨c, by simp only [checkSelectColumns, if_neg hm], by simp, hm⟩

/-- C5 (amended: the explicit-list check runs after WHERE filtering, so its
error surfaces only when filtering itself raised none — in particular
always when there is no WHERE clause): on an existing table whose WHERE
filtering yielded `rows`, the sentinel `['*']` resolves to the schema's
declared column order; an explicit list containing an undeclared name fails
with that name's "column does not exist" error; and an explicit list of
declared names is used verbatim, each surviving row projected to exactly
those columns. -/
theorem select_column_resolution (e : StorageEngine) (t : Table) (cols : List String)
    (table : String) (w : Option WhereClause) (rows : List Row)
    (ht : e.get_table table = some t)
    (hrows : (match w with
              | some wc => filterRows wc t.rows
              | none => pure t.rows) = Except.ok rows) :
    (cols = ["*"] →
        execute_select e cols table w =
          .ok ⟨t.get_column_names, rows.map (projectRow t.get_column_names), 0, none⟩) ∧
    ((∃ c ∈ cols, c ∉ t.get_column_names) → cols ≠ ["*"] →
        ∃ c, execute_select e cols table w = .error (.columnNotExist c table) ∧
          c ∈ cols ∧ c ∉ t.get_column_names) ∧
    ((∀ c ∈ cols, c ∈ t.get_column_names) → cols ≠ ["*"] →
        execute_select e cols table w = .ok ⟨cols, rows.map (projectRow cols), 0, none⟩) := by
  rcases w with _ | wc
  · have hr : t.rows = rows := by
      simpa [pure, Except.pure] using hrows
    subst hr
    refine ⟨?_, ?_, ?_⟩
    · intro hstar
      simp [execute_select, ht, Bind.bind, Except.bind, if_pos hstar, pure, Except.pure]
    · intro hmiss hne
      obtain ⟨c, hchk, hc1, hc2⟩ := checkSelectColumns_error table t.get_column_names cols hmiss
      refine ⟨c, ?_, hc1, hc2⟩
      simp [execute_select, ht, Bind.bind, Except.bind, if_neg hne, hchk, pure, Except.pure]
    · intro hall hne
      have hchk := checkSelectColumns_ok table t.get_column_names cols hall
      simp [execute_select, ht, Bind.bind, Except.bind, if_neg hne, hchk, pure, Except.pure]
  · have hf : filterRows wc t.rows = .ok rows := hrows
    refine ⟨?_, ?_, ?_⟩
    · intro hstar
      simp [execute_select, ht, hf, Bind.bind, Except.bind, if_pos hstar, pure, Except.pure]
    · intro hmiss hne
      obtain ⟨c, hchk, hc1, hc2⟩ := checkSelectColumns_error table t.get_column_names cols hmiss
      refine ⟨c, ?_, hc1, hc2⟩
      simp [execute_select, ht, hf, Bind.bind, Except.bind, if_neg hne, hchk, pure, Except.pure]
    · intro hall hne
      have hchk := checkSelectColumns_ok table t.get_column_names cols hall
      simp [execute_select, ht, hf, Bind.bind, Except.bind, if_neg hne, hchk, pure, Except.pure]

/-- C5 witness: `SELECT b, a` on a table declaring `(a, b)` returns exactly
`[b, a]` in the requested order, rows projected accordingly; the here-absent
WHERE clause filters nothing. -/
theorem select_column_resolution_witness :
    execute_select
        ⟨[("t", ⟨"t", [⟨"a", some "INT", none⟩, ⟨"b", some "INT", none⟩],
            [[("a", .int 1), ("b", .int 2)]]⟩)], []⟩
        ["b", "a"] "t" none =
      .ok ⟨["b", "a"], [[("b", Value.int 2), ("a", Value.int 1)]], 0, none⟩ := by
  have h := (select_column_resolution
    ⟨[("t", ⟨"t", [⟨"a", some "INT", none⟩, ⟨"b", some "INT", none⟩],
        [[("a", .int 1), ("b", .int 2)]]⟩)], []⟩
    ⟨"t", [⟨"a", some "INT", none⟩, ⟨"b", some "INT", none⟩],
      [[("a", .int 1), ("b", .int 2)]]⟩
    ["b", "a"] "t" none [[("a", .int 1), ("b", .int 2)]]
    (by decide) (by decide)).2.2 (by decide) (by decide)
  rw [h]
  decide

/-- C5 counterexample to the claim as stated: with a non-empty table and a
WHERE clause naming a column absent from the rows, a SELECT requesting the
undeclared column `b` fails with the WHERE evaluation error about `c`, not
with the "column does not exist" error about `b`. -/
theorem select_column_resolution_counterexample :
    execute_select ⟨[("t", ⟨"t", [⟨"a", some "INT", none⟩], [[("a", .int 1)]]⟩)], []⟩
        ["b"] "t" (some (.condition "c" "=" (.int 1))) =
      .error (.columnNotInRow "c") ∧
    execute_select ⟨[("t", ⟨"t", [⟨"a", some "INT", none⟩], [[("a", .int 1)]]⟩)], []⟩
        ["b"] "t" (some (.condition "c" "=" (.int 1))) ≠
      .error (.columnNotExist "b" "t") := by
  exact ⟨by decide, by decide⟩

/-! ## C6: WHERE chains fold strictly left, AND and OR alike -/

theorem cmpOpOf_cmpTokOf (op : String) (h : op ∈ cmpOps) :
    cmpOpOf (cmpTokOf op) = some op := by
  simp only [cmpOps, List.mem_cons, List.mem_singleton, List.not_mem_nil, or_false] at h
  rcases h with rfl | rfl | rfl | rfl | rfl | rfl <;> rfl

theorem parse_condition_condToks (col op : String) (v : Value) (rest : List Token)
    (h : op ∈ cmpOps) :
    parse_condition (condToks col op v ++ rest) = .ok (.condition col op v, rest) := by
  have hop := cmpOpOf_cmpTokOf op h
  simp [parse_condition, condToks, expect, Bind.bind, Except.bind, hop, parse_value,
    Value.asString, pure, Except.pure]

theorem chainToks_length (chain : List (Bool × String × String × Value)) :
    (chainToks chain).length = 4 * chain.length := by
  induction chain with
  | nil => rfl
  | cons el chain ih =>
    obtain ⟨b, col, op, v⟩ := el
    simp [chainToks, condToks, ih]
    omega

theorem parse_where_loop_chain (chain : List (Bool × String × String × Value))
    (hops : ∀ el ∈ chain, el.2.2.1 ∈ cmpOps) :
    ∀ (fuel : Nat) (left : WhereClause) (t0 : Token) (rest : List Token),
      ¬(t0.type = .AND ∨ t0.type = .OR) → chain.length < fuel →
      parse_where_loop fuel left (chainToks chain ++ t0 :: rest) =
        .ok (chainFold left chain, t0 :: rest) := by
  induction chain with
  | nil =>
    intro fuel left t0 rest ht0 hfuel
    cases fuel with
    | zero => omega
    | succ f => simp [chainToks, parse_where_loop, ht0, chainFold]
  | cons el chain ih =>
    intro fuel left t0 rest ht0 hfuel
    obtain ⟨b, col, op, v⟩ := el
    cases fuel with
    | zero => omega
    | succ f =>
      have hop : op ∈ cmpOps := by simpa using hops (b, col, op, v) (by simp)
      have hand : (andOrTok b).type = .AND ∨ (andOrTok b).type = .OR := by
        cases b <;> simp [andOrTok]
      have hval : (andOrTok b).value.asString = (if b then "AND" else "OR") := by
        cases b <;> simp [andOrTok, Value.asString]
      have hpc := parse_condition_condToks col op v (chainToks chain ++ t0 :: rest) hop
      have hassoc : chainToks ((b, col, op, v) :: chain) ++ t0 :: rest =
          andOrTok b :: (condToks col op v ++ (chainToks chain ++ t0 :: rest)) := by
        simp [chainToks]
      rw [hassoc]
      simp only [parse_where_loop, if_pos hand, hpc, hval, chainFold]
      exact ih (fun el hel => hops el (by simp [hel])) f _ t0 rest ht0 (by simpa using hfuel)

/-- C6: a WHERE chain `c0 op1 c1 ... opn cn` with each `opi` either AND or
OR parses to the strictly left-associated CompoundCondition fold — no
precedence distinction between AND and OR, purely fold order (the chain may
mix them arbitrarily).  `rest` is whatever follows the chain, beginning with
any non-AND/OR token (as lexer output always does, ending in EOF). -/
theorem parse_where_left_assoc (col0 op0 : String) (v0 : Value)
    (chain : List (Bool × String × String × Value)) (t0 : Token) (rest : List Token)
    (h0 : op0 ∈ cmpOps) (hops : ∀ el ∈ chain, el.2.2.1 ∈ cmpOps)
    (ht0 : ¬(t0.type = .AND ∨ t0.type = .OR)) :
    parse_where (condToks col0 op0 v0 ++ chainToks chain ++ t0 :: rest) =
      .ok (chainFold (.condition col0 op0 v0) chain, t0 :: rest) := by
  unfold parse_where
  rw [List.append_assoc, parse_condition_condToks col0 op0 v0 _ h0]
  simp only [Bind.bind, Except.bind]
  apply parse_where_loop_chain chain hops _ _ t0 rest ht0
  rw [List.length_append, chainToks_length]
  simp
  omega

/-- C6 witness: `a = 1 AND b = 2 OR c = 3` parses as
`(a = 1 AND b = 2) OR c = 3` — left fold, no precedence. -/
theorem parse_where_left_assoc_witness :
    parse_where (condToks "a" "=" (.int 1) ++
        chainToks [(true, "b", "=", .int 2), (false, "c", "=", .int 3)] ++
        [⟨.EOF, .pyNone, 0⟩]) =
      .ok (.compound
        (.compound (.condition "a" "=" (.int 1)) "AND" (.condition "b" "=" (.int 2)))
        "OR" (.condition "c" "=" (.int 3)), [⟨.EOF, .pyNone, 0⟩]) := by
  have h := parse_where_left_assoc "a" "=" (.int 1)
    [(true, "b", "=", .int 2), (false, "c", "=", .int 3)] ⟨.EOF, .pyNone, 0⟩ []
    (by decide) (by decide) (by decide)
  exact h.trans (by decide)

/-! ## C7: numeric literal runs -/

theorem isDigit_not_whitespace (c : Char) (h : c.isDigit = true) :
    c.isWhitespace = false := by
  by_contra hw
  have hw' : c.isWhitespace = true := by
    cases hws : c.isWhitespace
    · exact absurd hws hw
    · rfl
  simp [Char.isWhitespace] at hw'
  rcases hw' with ((rfl | rfl) | rfl) | rfl <;> exact absurd h (by decide)

theorem takeWhile_append_eq (p : Char → Bool) (run rest : List Char)
    (hall : ∀ c ∈ run, p c = true)
    (hrest : ∀ c, rest.head? = some c → p c = false) :
    (run ++ rest).takeWhile p = run ∧ (run ++ rest).dropWhile p = rest := by
  induction run with
  | nil =>
    cases rest with
    | nil => simp
    | cons c cs =>
      have hc := hrest c rfl
      simp [List.takeWhile_cons, List.dropWhile_cons, hc]
  | cons c run ih =>
    have hc := hall c (by simp)
    have ih' := ih fun d hd => hall d (by simp [hd])
    simp [List.takeWhile_cons, List.dropWhile_cons, hc, ih'.1, ih'.2]

theorem read_number_run (pos : Nat) (run rest : List Char)
    (hall : ∀ c ∈ run, numChar c = true)
    (hrest : ∀ c, rest.head? = some c → numChar c = false) :
    read_number pos (run ++ rest) =
      (numValue run).map fun v => (⟨.NUMBER, v, pos⟩, pos + run.length, rest) := by
  obtain ⟨htake, hdrop⟩ := takeWhile_append_eq numChar run rest hall hrest
  unfold read_number
  rw [htake, hdrop]
  rcases hnv : numValue run with err | v <;>
    simp [hnv, Bind.bind, Except.bind, Except.map, pure, Except.pure]

/-- C7 (amended: a run with more than one dot IS rejected — Python's
`float()` raises `ValueError` on it — while a dotless run yields an integer
NUMBER and a single-dot run a floating-point NUMBER): for every maximal
digit/dot run starting with a digit, the tokenizer consumes the run whole,
emits the corresponding NUMBER token and continues with the rest, except
that two or more dots abort tokenization with the float-conversion error. -/
theorem tokenize_number_runs (fuel pos : Nat) (run rest : List Char)
    (hne : run ≠ [])
    (hd : ∀ c, run.head? = some c → c.isDigit = true)
    (hall : ∀ c ∈ run, numChar c = true)
    (hrest : ∀ c, rest.head? = some c → numChar c = false) :
    (run.count '.' = 0 →
        tokenizeAux (fuel + 1) pos (run ++ rest) =
          (tokenizeAux fuel (pos + run.length) rest).map
            fun ts => ⟨.NUMBER, .int (natOfDigits run), pos⟩ :: ts) ∧
    (run.count '.' = 1 →
        tokenizeAux (fuel + 1) pos (run ++ rest) =
          (tokenizeAux fuel (pos + run.length) rest).map
            fun ts => ⟨.NUMBER, .float (decOfRun run).1 (decOfRun run).2, pos⟩ :: ts) ∧
    (2 ≤ run.count '.' →
        tokenizeAux (fuel + 1) pos (run ++ rest) =
          .error (.floatConv (String.mk run))) := by
  obtain ⟨c, run', hrun⟩ := List.exists_cons_of_ne_nil hne
  subst hrun
  have hcd : c.isDigit = true := hd c rfl
  have hw : c.isWhitespace = false := isDigit_not_whitespace c hcd
  have hrn := read_number_run pos (c :: run') rest hall hrest
  refine ⟨?_, ?_, ?_⟩
  · intro hcnt
    have hnc : ((c :: run').contains '.') = false := by
      simp only [List.count_eq_zero] at hcnt
      simpa [List.elem_iff] using hcnt
    have hnv : numValue (c :: run') = .ok (.int (natOfDigits (c :: run'))) := by
      unfold numValue
      rw [hnc]
      simp
    rw [hnv] at hrn
    rcases hrec : tokenizeAux fuel (pos + (c :: run').length) rest with err | ts <;>
      simp_all [List.cons_append, tokenizeAux, hw, hcd, Bind.bind, Except.bind,
        Except.map, pure, Except.pure]
  · intro hcnt
    have hmm : '.' ∈ (c :: run') := by
      by_contra hx
      rw [← List.count_eq_zero] at hx
      omega
    have hnc : ((c :: run').contains '.') = true := List.elem_eq_true_of_mem hmm
    have hnv : numValue (c :: run') =
        .ok (.float (decOfRun (c :: run')).1 (decOfRun (c :: run')).2) := by
      unfold numValue
      rw [hnc, hcnt]
      simp
    rw [hnv] at hrn
    rcases hrec : tokenizeAux fuel (pos + (c :: run').length) rest with err | ts <;>
      simp_all [List.cons_append, tokenizeAux, hw, hcd, Bind.bind, Except.bind,
        Except.map, pure, Except.pure]
  · intro hcnt
    have hmm : '.' ∈ (c :: run') := by
      by_contra hx
      rw [← List.count_eq_zero] at hx
      omega
    have hnc : ((c :: run').contains '.') = true := List.elem_eq_true_of_mem hmm
    have hnv : numValue (c :: run') = .error (.floatConv (String.mk (c :: run'))) := by
      have hne1 : ¬((c :: run').count '.' = 1) := by omega
      unfold numValue
      rw [hnc]
      simp [hne1]
    rw [hnv] at hrn
    simp_all [List.cons_append, tokenizeAux, hw, hcd, Bind.bind, Except.bind,
      Except.map, pure, Except.pure]

/-- C7 witness: the run `25` (no dot) becomes the integer NUMBER 25 and
tokenization continues. -/
theorem tokenize_number_runs_witness :
    tokenizeAux 1 0 (['2', '5'] ++ []) =
      (tokenizeAux 0 (0 + (['2', '5'] : List Char).length) []).map
        (fun ts => ⟨.NUMBER, .int (natOfDigits ['2', '5']), 0⟩ :: ts) :=
  (tokenize_number_runs 0 0 ['2', '5'] [] (by decide) (by decide) (by decide)
    (by decide)).1 (by decide)

/-- C7 counterexample to the claim as stated: the run `1.2.3` with two dots
is rejected by the tokenizer — `float('1.2.3')` raises — rather than
producing a NUMBER token. -/
theorem tokenize_number_runs_counterexample :
    tokenize "1.2.3" = .error (.floatConv "1.2.3") := by
  decide

end PySql
